import Mathlib

/-!
# Verification of the hobogo app layer (`src/app.rs`)

Shallow embedding of the state and UI-orchestration logic of `src/app.rs`.
The `Board`/`Coord`/`Player` types come from `crate::hobogo` and the search
engine from `crate::mcts`; neither module is present under `src/`, so those
operations are modelled from the spec (each such definition says so in its
doc comment).  Machine integers (`u8` for `Player`, `usize` for counts,
`i32` for coordinates) are modelled as `Nat`/`Int` with explicit `% 256`
where the `u8` casts in the source matter.
-/

namespace Hobogo

/-- Source `Player` is `u8` in the source (`crate::hobogo`); modelled as `Nat`,
with the source's `u8` casts made explicit as `% 256`. -/
abbrev Player := Nat

/-- Source `Coord` (from `crate::hobogo`): an integer `(x, y)` pair; the source uses
`i32`, modelled as `Int`. -/
structure Coord where
  x : Int
  y : Int
deriving DecidableEq, Repr

/-- Modelled from the spec: `Board` (from `crate::hobogo`, not under `src/`)
is a width × height grid of cells, each empty or occupied by one player's
stone.  Cells are stored row-major, matching the spec's `coords()`/`index()`
ordering. -/
structure Board where
  width : Int
  height : Int
  cells : List (Option Player)
deriving DecidableEq, Repr

/-- Modelled from the spec: fresh all-empty board (`Board::new` in
`crate::hobogo`, called by `State::new`). -/
def Board.new (w h : Int) : Board :=
  ⟨w, h, List.replicate (w * h).toNat none⟩

/-- Modelled from the spec: `coords()` produces all valid `Coord` in a fixed
row-major order. -/
def Board.coords (b : Board) : List Coord :=
  (List.range b.height.toNat).flatMap fun y =>
    (List.range b.width.toNat).map fun x => ⟨Int.ofNat x, Int.ofNat y⟩

/-- Modelled from the spec: `index(c)` returns a linear index for `c` if in
bounds, else signals "out of range" (no index). -/
def Board.index (b : Board) (c : Coord) : Option Nat :=
  if 0 ≤ c.x ∧ c.x < b.width ∧ 0 ≤ c.y ∧ c.y < b.height then
    some (c.y * b.width + c.x).toNat
  else
    none

/-- Modelled from the spec: cell read by `Coord` (`board[c]` in the source);
out-of-range reads signal "no such cell" (here: empty). -/
def Board.get (b : Board) (c : Coord) : Option Player :=
  match b.index c with
  | some i => b.cells.getD i none
  | none => none

/-- Modelled from the spec: cell write by `Coord`
(`board[c] = Some(player)` in the source); only invoked by the state
transition paths.  Out-of-range writes are modelled as no-ops. -/
def Board.set (b : Board) (c : Coord) (v : Option Player) : Board :=
  match b.index c with
  | some i => { b with cells := b.cells.set i v }
  | none => b

/-- Modelled from the spec: `is_empty()` is true iff no stones have been
placed yet. -/
def Board.is_empty (b : Board) : Bool :=
  b.cells.all Option.isNone

/-- Modelled from the spec: a player's minimum 4-connected flood-fill
distance from all of that player's stones simultaneously to `c`
(on the full grid this is the minimum Manhattan distance to a stone);
`none` when the player has no stones. -/
def Board.playerDist (b : Board) (p : Player) (c : Coord) : Option Nat :=
  (b.coords.filterMap fun s =>
    if b.get s = some p then some ((c.x - s.x).natAbs + (c.y - s.y).natAbs)
    else none).min?

/-- Modelled from the spec: `influence(c)`'s claiming player.  A
stone-occupied cell is claimed by its occupant; otherwise the player with
the strictly smallest minimum distance claims the cell, and a tie (or no
stones at all) leaves the cell neutral (`none`). -/
def Board.claimant (b : Board) (n : Nat) (c : Coord) : Option Player :=
  match b.get c with
  | some p => some p
  | none =>
    let ds := (List.range n).filterMap fun p =>
      (b.playerDist p c).map fun d => (p, d)
    (ds.find? fun pd => ds.all fun qe => pd.1 == qe.1 || pd.2 < qe.2).map Prod.fst

/-- Modelled from the spec: a cell is volatile iff it is empty and a single
additional placement somewhere on the board could change its nearest
claimant (the spec's defining property for volatility; the precise numeric
rule is left open by the spec). -/
def Board.volatile (b : Board) (n : Nat) (c : Coord) : Bool :=
  (b.get c).isNone &&
    b.coords.any fun s =>
      (b.get s).isNone &&
        (List.range n).any fun p =>
          (b.set s (some p)).claimant n c != b.claimant n c

/-- Modelled from the spec: `volatile_cells(num_players)` returns one flag
per cell, indexed the same way as `index()` (row-major). -/
def Board.volatile_cells (b : Board) (n : Nat) : List Bool :=
  b.coords.map fun c => b.volatile n c

/-- Modelled from the spec: `is_valid_move(coord, player, num_players)` is
true iff the target cell is empty and currently volatile.  The `player`
argument is kept from the source signature; the spec's legality bound
(§8) is per-cell, via `volatile_cells`. -/
def Board.is_valid_move (b : Board) (c : Coord) (_p : Player) (n : Nat) : Bool :=
  (b.get c).isNone && b.volatile n c

/-- Modelled from the spec: `is_game_over(num_players)` is true when no
player has any legal move remaining (a completely filled board has no
legal moves, since occupied cells are never valid targets). -/
def Board.is_game_over (b : Board) (n : Nat) : Bool :=
  b.coords.all fun c => (List.range n).all fun p => !(b.is_valid_move c p n)

/-- Source `Settings` (src/app.rs lines 22-29).  `bot_think_time : f32` is omitted:
it is floating point and only feeds the wall-clock budget of `ai_move`,
which is outside the embedded logic. -/
structure Settings where
  board_size : Nat
  num_humans : Nat
  num_bots : Nat
  humans_first : Bool
deriving DecidableEq, Repr

/-- Source `Settings::num_players` (lines 43-47). -/
def Settings.num_players (s : Settings) : Nat :=
  s.num_humans + s.num_bots

/-- Source `State` (lines 49-54). -/
structure State where
  settings : Settings
  board : Board
  next_player : Player
deriving DecidableEq, Repr

/-- Source `State::num_players` (lines 332-334). -/
def State.numPlayers (s : State) : Nat :=
  s.settings.num_players

/-- Source `State::new` (lines 57-68).  `settings.num_humans as Player` is a
`usize → u8` cast, hence `% 256`; `board_size as i32` is the identity for
the slider range (5..=17) and is modelled as the plain coercion. -/
def State.new (settings : Settings) : State :=
  let first_player : Player := if settings.humans_first then 0 else settings.num_humans % 256
  { settings := settings
    board := Board.new (settings.board_size : Int) (settings.board_size : Int)
    next_player := first_player }

/-- Source `State::is_valid` (lines 70-72). -/
def State.is_valid (s : State) : Bool :=
  decide (2 ≤ s.settings.num_players) && decide (s.next_player < s.numPlayers)

/-- Source `State::is_human` (lines 336-338). -/
def State.is_human (s : State) (p : Player) : Bool :=
  decide (p < s.settings.num_humans)

/-- Source `State::next_player_is_human` (lines 340-342). -/
def State.next_player_is_human (s : State) : Bool :=
  s.is_human s.next_player && !(s.board.is_game_over s.numPlayers)

/-- The turn advance `(state.next_player + 1) % (state.num_players() as u8)`
(lines 241-242 and 268): `u8` addition wraps at 256 and the `usize → u8`
cast of `num_players` truncates mod 256. -/
def advance (np n : Nat) : Nat :=
  ((np + 1) % 256) % (n % 256)

/-- The mutation performed by a human click (lines 239-243, without the
storage write): push is handled by the caller; the stone is written at the
hovered coordinate and the turn advances. -/
def humanPlace (s : State) (c : Coord) : State :=
  { s with
    board := s.board.set c (some s.next_player)
    next_player := advance s.next_player s.numPlayers }

/-- The bot-turn mutation (lines 265-268): if `ai_move` produced a
coordinate the stone is written, otherwise the board is untouched; either
way the turn advances. -/
def botTurn (s : State) (mv : Option Coord) : State :=
  { s with
    board := match mv with
             | some c => s.board.set c (some s.next_player)
             | none => s.board
    next_player := advance s.next_player s.numPlayers }

/-- Source `mcts::Action` (from `crate::mcts`, not under `src/`): the spec's tagged
choice, either pass or place at a coordinate. -/
inductive Action where
  | Pass : Action
  | Move : Coord → Action
deriving DecidableEq, Repr

/-- Source `State::ai_move` (lines 443-481), modelled past the search: the MCTS
engine and its wall-clock loop live in `crate::mcts` (not under `src/`), so
the result of `mcts.best_action()` is taken as the argument and only the
mapping performed by `ai_move` on it (lines 471-480) is embedded. -/
def aiMoveOf (best : Option Action) : Option Coord :=
  match best with
  | some Action.Pass => none
  | some (Action.Move coord) => some coord
  | none => none

/-- A screen rectangle as used by `hovered_coord` (`egui::Rect`): only
`left`, `top` and `width` are read.  The source uses `f32`; modelled
over `ℚ`. -/
structure Screen where
  left : ℚ
  top : ℚ
  width : ℚ
deriving DecidableEq

/-- Source `hovered_coord` (lines 507-525): scans `board.coords()` in order and
returns the first cell whose screen box contains the mouse position. -/
def hovered_coord (b : Board) (rect : Screen) (mx my : ℚ) : Option Coord :=
  let spacing := rect.width / (b.width : ℚ)
  b.coords.find? fun c =>
    let x := (c.x : ℚ) * spacing + rect.left
    let y := (c.y : ℚ) * spacing + rect.top
    decide (x ≤ mx) && decide (mx ≤ x + spacing) &&
      decide (y ≤ my) && decide (my ≤ y + spacing)

/-- Source `App` (lines 117-126).  `VecDeque` with `push_back`/`pop_back` is
modelled as a `List` with pushes appended at the end. -/
structure App where
  state : State
  undo_stack : List State
  ai_frame_delay : Nat
deriving DecidableEq

/-- Source `App::show_board_and_interact` (lines 215-276), its effect on the app
state and the `State` that ends up rendered.  Inputs: the mouse position
when the board is hovered, whether a click happened, whether the pointer
is busy elsewhere, and the search engine's `best_action` result (the MCTS
engine is external to `src/`).  The `save_to_local_storage` call is a
storage side effect, modelled separately.  Returns the new app and the
state passed to `show_board` (the preview clone when hovering without a
click, the authoritative state otherwise). -/
def show_board_and_interact (app : App) (rect : Screen) (hover : Option (ℚ × ℚ))
    (clicked usingPointer : Bool) (best : Option Action) : App × State :=
  let state := app.state
  if !(state.board.is_game_over state.numPlayers) then
    if state.next_player_is_human then
      match hover with
      | some (mx, my) =>
        match hovered_coord state.board rect mx my with
        | some hc =>
          if state.board.is_valid_move hc state.next_player state.numPlayers then
            if clicked then
              let st := humanPlace state hc
              ({ app with state := st, undo_stack := app.undo_stack ++ [state] }, st)
            else
              (app, { state with board := state.board.set hc (some state.next_player) })
          else (app, state)
        | none => (app, state)
      | none => (app, state)
    else
      if usingPointer then (app, state)
      else if app.ai_frame_delay < 6 then
        ({ app with ai_frame_delay := app.ai_frame_delay + 1 }, state)
      else
        let st := botTurn state (aiMoveOf best)
        ({ app with state := st, ai_frame_delay := 0 }, st)
  else (app, state)

/-- The "New Game" button handler (lines 168-175): push the current state
onto the undo stack iff the board is non-empty, then reset. -/
def newGameClicked (app : App) : App :=
  let undo := if !app.state.board.is_empty then app.undo_stack ++ [app.state]
              else app.undo_stack
  { app with state := State.new app.state.settings, undo_stack := undo }

/-- Source loop `while settings.num_players() < 2` incrementing `num_humans`
normalisation (lines 202-204): each pass adds one human until there are at
least two participants, i.e. `max 0 (2 - total)` humans are added. -/
def Settings.ensure_min_players (s : Settings) : Settings :=
  if 2 ≤ s.num_players then s
  else { s with num_humans := s.num_humans + (2 - s.num_players) }

/-- Source `App::show_settings` (lines 183-213), its effect on the app state:
`slider` is the settings value produced by the widgets; it is normalised to
at least two participants, and if it differs from the current settings the
pre-reset state is pushed (iff the board is non-empty) and the game is
reset.  The storage write is modelled separately. -/
def show_settings (app : App) (slider : Settings) : App :=
  let settings := slider.ensure_min_players
  if settings ≠ app.state.settings then
    let undo := if !app.state.board.is_empty then app.undo_stack ++ [app.state]
                else app.undo_stack
    { app with state := State.new settings, undo_stack := undo }
  else app

/-- Source `State::save_to_local_storage` (lines 93-110), its effect on the store.
Modelled from the spec: the JSON encoding (serde_json over the excluded
persistence layer) is not part of the core; the spec requires only that the
snapshot round-trip board dimensions, the full cell-occupancy grid,
`next_player` and the participant composition losslessly, so the stored
snapshot is represented by the `State` it encodes. -/
def State.savedSnapshot (s : State) : Option State :=
  some s

/-- Source `State::from_local_storage` (lines 74-91): `stored` is the parse result
of the stored snapshot (`None` for a missing or malformed snapshot — the
serde decoding itself is external, see `State.savedSnapshot`); the
validity filter on lines 85-90 is embedded as in the source. -/
def State.from_local_storage (stored : Option State) : Option State :=
  match stored with
  | some state => if state.is_valid then some state else none
  | none => none

/-! ## Helper lemmas -/

/-- Under the real bounds (`next_player < num_players < 256`) the `u8`
advance is exactly the mathematical successor modulo `num_players`. -/
theorem advance_eq (np n : Nat) (h1 : np < n) (h2 : n < 256) :
    advance np n = (np + 1) % n := by
  unfold advance
  rw [Nat.mod_eq_of_lt h2, Nat.mod_eq_of_lt (by omega : np + 1 < 256)]

/-- A human turn (per `next_player_is_human`) implies the game is not
over. -/
theorem human_not_game_over (s : State) (h : s.next_player_is_human = true) :
    s.board.is_game_over s.numPlayers = false := by
  unfold State.next_player_is_human at h
  rcases Bool.and_eq_true .. |>.mp h with ⟨-, h2⟩
  simpa using h2

/-! ## C1 -/

/-- C1, as stated, is false: the quantifier ranges over every `Settings`
with at least two participants, but with `num_humans = 2`, `num_bots = 0`
and `humans_first = false`, `State::new` starts at player `2 = num_players`,
violating `next_player < num_players` (`is_valid` is `false`). -/
theorem c1_counterexample :
    2 ≤ (⟨9, 2, 0, false⟩ : Settings).num_players ∧
      (State.new ⟨9, 2, 0, false⟩).is_valid = false := by
  decide

/-- C1 (amended): for every `Settings` with at least 2 total participants
such that `humans_first` is true or `num_humans` is strictly less than the
participant count, `State::new` produces a state satisfying
`next_player < num_players` (`is_valid` holds); the starting player is `0`
when `humans_first` and `num_humans` (reduced by the `usize → u8` cast)
otherwise. -/
theorem c1_new_state_is_valid (s : Settings) (h2 : 2 ≤ s.num_players)
    (h3 : s.humans_first = true ∨ s.num_humans < s.num_players) :
    (State.new s).is_valid = true ∧
      (s.humans_first = true → (State.new s).next_player = 0) ∧
      (s.humans_first = false → (State.new s).next_player = s.num_humans % 256) := by
  have hnp : (State.new s).next_player =
      if s.humans_first then 0 else s.num_humans % 256 := rfl
  have hset : (State.new s).settings = s := rfl
  refine ⟨?_, fun hf => by rw [hnp, if_pos hf], fun hf => by rw [hnp, if_neg (by simp [hf])]⟩
  unfold State.is_valid State.numPlayers
  rw [hset, hnp]
  simp only [Bool.and_eq_true, decide_eq_true_eq]
  refine ⟨h2, ?_⟩
  cases hf : s.humans_first with
  | true =>
    rw [if_pos rfl]
    exact Nat.lt_of_lt_of_le Nat.zero_lt_two h2
  | false =>
    have h3' : s.num_humans < s.num_players := by
      rcases h3 with h | h
      · rw [hf] at h; cases h
      · exact h
    rw [if_neg (by simp [hf])]
    exact Nat.lt_of_le_of_lt (Nat.mod_le _ _) h3'

/-- Witness for C1 (amended) at the default-like settings `1` human and
`1` bot, humans first. -/
theorem c1_new_state_is_valid_witness :
    2 ≤ (⟨9, 1, 1, true⟩ : Settings).num_players ∧
      (State.new ⟨9, 1, 1, true⟩).is_valid = true :=
  ⟨by decide, (c1_new_state_is_valid ⟨9, 1, 1, true⟩ (by decide) (Or.inl rfl)).1⟩

/-! ## C2 -/

/-- C2: every applied action — the human-click placement (`humanPlace`) and
the bot turn (`botTurn`, with a move or with a pass) — leaves
`next_player` at `(old next_player + 1) % num_players`. -/
theorem c2_next_player_advances (s : State) (c : Coord) (mv : Option Coord)
    (h1 : s.next_player < s.numPlayers) (h2 : s.numPlayers < 256) :
    (humanPlace s c).next_player = (s.next_player + 1) % s.numPlayers ∧
      (botTurn s mv).next_player = (s.next_player + 1) % s.numPlayers := by
  have h := advance_eq s.next_player s.numPlayers h1 h2
  exact ⟨h, h⟩

/-- Witness for C2 on the fresh 1-human/1-bot game. -/
theorem c2_next_player_advances_witness :
    ((State.new ⟨2, 1, 1, true⟩).next_player < (State.new ⟨2, 1, 1, true⟩).numPlayers ∧
        (State.new ⟨2, 1, 1, true⟩).numPlayers < 256) ∧
      (humanPlace (State.new ⟨2, 1, 1, true⟩) ⟨0, 0⟩).next_player =
        ((State.new ⟨2, 1, 1, true⟩).next_player + 1) % (State.new ⟨2, 1, 1, true⟩).numPlayers :=
  ⟨⟨by decide, by decide⟩,
    (c2_next_player_advances (State.new ⟨2, 1, 1, true⟩) ⟨0, 0⟩ none (by decide) (by decide)).1⟩

/-! ## C3 -/

/-- C3: on a human turn, the interaction step either leaves the board
untouched or — only when the game is not over, a click happened, and the
hovered coordinate is on the board with `is_valid_move` true — writes
`next_player`'s stone exactly there, so `apply`'s illegal-move contract
violation is unreachable from the UI path. -/
theorem c3_click_only_valid_moves (app : App) (rect : Screen) (hover : Option (ℚ × ℚ))
    (clicked usingPointer : Bool) (best : Option Action)
    (hhuman : app.state.next_player_is_human = true) :
    (show_board_and_interact app rect hover clicked usingPointer best).1.state.board =
        app.state.board ∨
      ∃ mx my hc, hover = some (mx, my) ∧
        hovered_coord app.state.board rect mx my = some hc ∧
        hc ∈ app.state.board.coords ∧
        app.state.board.is_game_over app.state.numPlayers = false ∧
        app.state.board.is_valid_move hc app.state.next_player app.state.numPlayers = true ∧
        clicked = true ∧
        (show_board_and_interact app rect hover clicked usingPointer best).1.state.board =
          app.state.board.set hc (some app.state.next_player) := by
  have hgo := human_not_game_over app.state hhuman
  rcases hover with - | ⟨mx, my⟩
  · left
    simp [show_board_and_interact, hgo, hhuman]
  · cases hhc : hovered_coord app.state.board rect mx my with
    | none =>
      left
      simp [show_board_and_interact, hgo, hhuman, hhc]
    | some hc =>
      cases hv : app.state.board.is_valid_move hc app.state.next_player app.state.numPlayers with
      | false =>
        left
        simp [show_board_and_interact, hgo, hhuman, hhc, hv]
      | true =>
        cases clicked with
        | false =>
          left
          simp [show_board_and_interact, hgo, hhuman, hhc, hv]
        | true =>
          right
          refine ⟨mx, my, hc, rfl, hhc, ?_, hgo, hv, rfl, ?_⟩
          · have hfind := hhc
            unfold hovered_coord at hfind
            exact List.mem_of_find?_eq_some hfind
          · simp [show_board_and_interact, hgo, hhuman, hhc, hv, humanPlace]

/-- Witness for C3: fresh 2×2 board, human to play, mouse over the origin
cell, click applied. -/
theorem c3_click_only_valid_moves_witness :
    (State.mk ⟨2, 1, 1, true⟩ ⟨2, 2, [none, none, none, none]⟩ 0).next_player_is_human = true ∧
      ((show_board_and_interact
          (App.mk (State.mk ⟨2, 1, 1, true⟩ ⟨2, 2, [none, none, none, none]⟩ 0) [] 0)
          ⟨0, 0, 2⟩ (some (1, 1)) true false none).1.state.board =
        (App.mk (State.mk ⟨2, 1, 1, true⟩ ⟨2, 2, [none, none, none, none]⟩ 0) [] 0).state.board ∨
      ∃ mx my hc, (some ((1 : ℚ), (1 : ℚ)) : Option (ℚ × ℚ)) = some (mx, my) ∧
        hovered_coord (State.mk ⟨2, 1, 1, true⟩ ⟨2, 2, [none, none, none, none]⟩ 0).board
          ⟨0, 0, 2⟩ mx my = some hc ∧
        hc ∈ (State.mk ⟨2, 1, 1, true⟩ ⟨2, 2, [none, none, none, none]⟩ 0).board.coords ∧
        (State.mk ⟨2, 1, 1, true⟩ ⟨2, 2, [none, none, none, none]⟩ 0).board.is_game_over
          (State.mk ⟨2, 1, 1, true⟩ ⟨2, 2, [none, none, none, none]⟩ 0).numPlayers = false ∧
        (State.mk ⟨2, 1, 1, true⟩ ⟨2, 2, [none, none, none, none]⟩ 0).board.is_valid_move hc
          (State.mk ⟨2, 1, 1, true⟩ ⟨2, 2, [none, none, none, none]⟩ 0).next_player
          (State.mk ⟨2, 1, 1, true⟩ ⟨2, 2, [none, none, none, none]⟩ 0).numPlayers = true ∧
        (true = true) ∧
        (show_board_and_interact
            (App.mk (State.mk ⟨2, 1, 1, true⟩ ⟨2, 2, [none, none, none, none]⟩ 0) [] 0)
            ⟨0, 0, 2⟩ (some (1, 1)) true false none).1.state.board =
          (State.mk ⟨2, 1, 1, true⟩ ⟨2, 2, [none, none, none, none]⟩ 0).board.set hc
            (some (State.mk ⟨2, 1, 1, true⟩ ⟨2, 2, [none, none, none, none]⟩ 0).next_player)) :=
  ⟨by decide,
    c3_click_only_valid_moves
      (App.mk (State.mk ⟨2, 1, 1, true⟩ ⟨2, 2, [none, none, none, none]⟩ 0) [] 0)
      ⟨0, 0, 2⟩ (some (1, 1)) true false none (by decide)⟩

/-! ## C4 -/

/-- C4: `ai_move` yields `None` exactly when `best_action` yields no action
or yields `Pass`, and in that case the bot turn leaves the board unchanged
while `next_player` still advances. -/
theorem c4_ai_pass_skips_turn (best : Option Action) (s : State)
    (h1 : s.next_player < s.numPlayers) (h2 : s.numPlayers < 256) :
    (aiMoveOf best = none ↔ best = none ∨ best = some Action.Pass) ∧
      (aiMoveOf best = none → (botTurn s (aiMoveOf best)).board = s.board) ∧
      (botTurn s (aiMoveOf best)).next_player = (s.next_player + 1) % s.numPlayers := by
  refine ⟨?_, ?_, advance_eq s.next_player s.numPlayers h1 h2⟩
  · cases best with
    | none => simp [aiMoveOf]
    | some a => cases a <;> simp [aiMoveOf]
  · intro h
    rw [h]
    rfl

/-- Witness for C4: a `Pass` decision on the fresh 1-human/1-bot game. -/
theorem c4_ai_pass_skips_turn_witness :
    ((State.new ⟨2, 1, 1, true⟩).next_player < (State.new ⟨2, 1, 1, true⟩).numPlayers ∧
        (State.new ⟨2, 1, 1, true⟩).numPlayers < 256) ∧
      (aiMoveOf (some Action.Pass) = none ↔
        (some Action.Pass : Option Action) = none ∨
          (some Action.Pass : Option Action) = some Action.Pass) :=
  ⟨⟨by decide, by decide⟩,
    (c4_ai_pass_skips_turn (some Action.Pass) (State.new ⟨2, 1, 1, true⟩)
      (by decide) (by decide)).1⟩

/-! ## C6 -/

/-- C6: for every valid state, saving and then restoring reconstructs a
state whose settings, cell grid and `next_player` equal those of the saved
state. -/
theorem c6_storage_roundtrip (s : State) (h : s.is_valid = true) :
    State.from_local_storage s.savedSnapshot = some s ∧
      ∃ t, State.from_local_storage s.savedSnapshot = some t ∧
        t.settings = s.settings ∧ t.board = s.board ∧ t.next_player = s.next_player := by
  have hload : State.from_local_storage s.savedSnapshot = some s := by
    simp [State.savedSnapshot, State.from_local_storage, h]
  exact ⟨hload, s, hload, rfl, rfl, rfl⟩

/-- Witness for C6 on the fresh 1-human/1-bot game. -/
theorem c6_storage_roundtrip_witness :
    (State.new ⟨2, 1, 1, true⟩).is_valid = true ∧
      State.from_local_storage (State.new ⟨2, 1, 1, true⟩).savedSnapshot =
        some (State.new ⟨2, 1, 1, true⟩) :=
  ⟨by decide, (c6_storage_roundtrip (State.new ⟨2, 1, 1, true⟩) (by decide)).1⟩

/-! ## C5 -/

/-- Passing preserves the settings (and hence the participant count). -/
theorem botPass_settings (s : State) : (botTurn s none).settings = s.settings := rfl

/-- Iterating `k` passes advances `next_player` by `k` modulo the
participant count and preserves the settings. -/
theorem botPass_iterate (k : Nat) :
    ∀ s : State, s.next_player < s.numPlayers → s.numPlayers < 256 →
      ((fun st => botTurn st none)^[k] s).next_player = (s.next_player + k) % s.numPlayers ∧
        ((fun st => botTurn st none)^[k] s).settings = s.settings := by
  induction k with
  | zero =>
    intro s h1 _
    rw [Function.iterate_zero_apply]
    exact ⟨by rw [Nat.add_zero, Nat.mod_eq_of_lt h1], rfl⟩
  | succ k ih =>
    intro s h1 h2
    have hpos : 0 < s.numPlayers := Nat.lt_of_le_of_lt (Nat.zero_le _) h1
    have hstep : (botTurn s none).next_player = (s.next_player + 1) % s.numPlayers :=
      advance_eq _ _ h1 h2
    have hnum : (botTurn s none).numPlayers = s.numPlayers := rfl
    have hlt : (botTurn s none).next_player < (botTurn s none).numPlayers := by
      rw [hstep, hnum]
      exact Nat.mod_lt _ hpos
    obtain ⟨ha, hb⟩ := ih (botTurn s none) hlt (by rw [hnum]; exact h2)
    rw [Function.iterate_succ_apply]
    refine ⟨?_, hb⟩
    rw [ha, hnum, hstep, Nat.mod_add_mod, Nat.add_assoc, Nat.add_comm 1 k, ← Nat.add_assoc]

/-- C5: placing one stone (whose turn update is `humanPlace`) and then
passing `num_players - 1` times returns `next_player` to its value before
the placement. -/
theorem c5_pass_cycle (s : State) (c : Coord)
    (h1 : s.next_player < s.numPlayers) (h2 : s.numPlayers < 256) :
    ((fun st => botTurn st none)^[s.numPlayers - 1] (humanPlace s c)).next_player =
      s.next_player := by
  have hpos : 0 < s.numPlayers := Nat.lt_of_le_of_lt (Nat.zero_le _) h1
  have hnum : (humanPlace s c).numPlayers = s.numPlayers := rfl
  have hnext : (humanPlace s c).next_player = (s.next_player + 1) % s.numPlayers :=
    advance_eq _ _ h1 h2
  have hlt : (humanPlace s c).next_player < (humanPlace s c).numPlayers := by
    rw [hnext, hnum]
    exact Nat.mod_lt _ hpos
  obtain ⟨ha, -⟩ := botPass_iterate (s.numPlayers - 1) (humanPlace s c) hlt
    (by rw [hnum]; exact h2)
  rw [ha, hnum, hnext, Nat.mod_add_mod, Nat.add_assoc,
    Nat.add_sub_cancel' (Nat.one_le_iff_ne_zero.mpr (Nat.pos_iff_ne_zero.mp hpos)),
    Nat.add_mod_right, Nat.mod_eq_of_lt h1]

/-- Witness for C5 on the fresh 1-human/1-bot game (one placement, one
pass). -/
theorem c5_pass_cycle_witness :
    ((State.new ⟨2, 1, 1, true⟩).next_player < (State.new ⟨2, 1, 1, true⟩).numPlayers ∧
        (State.new ⟨2, 1, 1, true⟩).numPlayers < 256) ∧
      ((fun st => botTurn st none)^[(State.new ⟨2, 1, 1, true⟩).numPlayers - 1]
          (humanPlace (State.new ⟨2, 1, 1, true⟩) ⟨0, 0⟩)).next_player =
        (State.new ⟨2, 1, 1, true⟩).next_player :=
  ⟨⟨by decide, by decide⟩,
    c5_pass_cycle (State.new ⟨2, 1, 1, true⟩) ⟨0, 0⟩ (by decide) (by decide)⟩

/-! ## C7 -/

/-- C7: both reset paths — the "New Game" button and a settings change —
push the pre-reset state onto the undo stack exactly when the board is
non-empty (an empty board is never pushed). -/
theorem c7_undo_push_iff_nonempty (app : App) (slider : Settings)
    (hch : slider.ensure_min_players ≠ app.state.settings) :
    ((newGameClicked app).undo_stack =
        if app.state.board.is_empty then app.undo_stack
        else app.undo_stack ++ [app.state]) ∧
      ((show_settings app slider).undo_stack =
        if app.state.board.is_empty then app.undo_stack
        else app.undo_stack ++ [app.state]) := by
  constructor
  · unfold newGameClicked
    cases h : app.state.board.is_empty <;> simp [h]
  · unfold show_settings
    rw [if_pos hch]
    cases h : app.state.board.is_empty <;> simp [h]

/-- Witness for C7: adding a bot to the fresh 1-human/1-bot game changes
the settings; the board is empty so nothing is pushed. -/
theorem c7_undo_push_iff_nonempty_witness :
    ((⟨9, 2, 1, true⟩ : Settings).ensure_min_players ≠
        (App.mk (State.new ⟨9, 1, 1, true⟩) [] 0).state.settings) ∧
      (newGameClicked (App.mk (State.new ⟨9, 1, 1, true⟩) [] 0)).undo_stack =
        (if (App.mk (State.new ⟨9, 1, 1, true⟩) [] 0).state.board.is_empty then
          (App.mk (State.new ⟨9, 1, 1, true⟩) [] 0).undo_stack
        else
          (App.mk (State.new ⟨9, 1, 1, true⟩) [] 0).undo_stack ++
            [(App.mk (State.new ⟨9, 1, 1, true⟩) [] 0).state]) :=
  ⟨by decide,
    (c7_undo_push_iff_nonempty (App.mk (State.new ⟨9, 1, 1, true⟩) [] 0)
      ⟨9, 2, 1, true⟩ (by decide)).1⟩

/-! ## C8 -/

/-- C8: every coordinate produced by `coords()` is in bounds, so `index`
returns a linear index (never the "out of range" signal) and the unwrap in
`show_board` cannot fail. -/
theorem c8_coords_index_isSome (b : Board) (c : Coord) (h : c ∈ b.coords) :
    (b.index c).isSome = true := by
  unfold Board.coords at h
  rw [List.mem_flatMap] at h
  obtain ⟨y, hy, hmem⟩ := h
  rw [List.mem_map] at hmem
  obtain ⟨x, hx, rfl⟩ := hmem
  rw [List.mem_range] at hy hx
  unfold Board.index
  rw [if_pos]
  · rfl
  · dsimp only
    simp only [Int.ofNat_eq_natCast]
    refine ⟨Int.natCast_nonneg x, ?_, Int.natCast_nonneg y, ?_⟩ <;> omega

/-- Witness for C8 on a 2×2 board at the origin. -/
theorem c8_coords_index_isSome_witness :
    (⟨0, 0⟩ : Coord) ∈ (Board.new 2 2).coords ∧
      ((Board.new 2 2).index ⟨0, 0⟩).isSome = true :=
  ⟨by decide, c8_coords_index_isSome (Board.new 2 2) ⟨0, 0⟩ (by decide)⟩

/-! ## C9 -/

/-- C9: whatever the stored snapshot parsed to (any `Option State`,
including states violating the invariant), `from_local_storage` only ever
returns states satisfying `is_valid`. -/
theorem c9_restored_state_is_valid (stored : Option State) (s : State)
    (h : State.from_local_storage stored = some s) : s.is_valid = true := by
  cases stored with
  | none => simp [State.from_local_storage] at h
  | some t =>
    simp only [State.from_local_storage] at h
    split at h
    · cases h; assumption
    · cases h

/-- Witness for C9: restoring the fresh 1-human/1-bot game. -/
theorem c9_restored_state_is_valid_witness :
    State.from_local_storage (some (State.new ⟨2, 1, 1, true⟩)) =
        some (State.new ⟨2, 1, 1, true⟩) ∧
      (State.new ⟨2, 1, 1, true⟩).is_valid = true :=
  ⟨by decide, c9_restored_state_is_valid (some (State.new ⟨2, 1, 1, true⟩))
    (State.new ⟨2, 1, 1, true⟩) (by decide)⟩

/-! ## C10 -/

/-- Helper evaluation: on the empty 2×2 board drawn in a width-2 square at
the origin, the mouse at `(1, 1)` hovers the origin cell. -/
theorem hovered_coord_origin_eval :
    hovered_coord ⟨2, 2, [none, none, none, none]⟩ ⟨0, 0, 2⟩ 1 1 = some ⟨0, 0⟩ := by
  simp [hovered_coord, Board.coords, List.range_succ]

/-- C10: hovering a valid move cell without clicking renders the preview
clone (the state with the stone added) and leaves the app — board,
`next_player`, settings and undo stack — exactly as before. -/
theorem c10_hover_preview_is_pure (app : App) (rect : Screen) (mx my : ℚ)
    (usingPointer : Bool) (best : Option Action) (hc : Coord)
    (hhum : app.state.next_player_is_human = true)
    (hhc : hovered_coord app.state.board rect mx my = some hc)
    (hvalid : app.state.board.is_valid_move hc app.state.next_player app.state.numPlayers = true) :
    show_board_and_interact app rect (some (mx, my)) false usingPointer best =
      (app, { app.state with
                board := app.state.board.set hc (some app.state.next_player) }) := by
  have hgo := human_not_game_over app.state hhum
  simp [show_board_and_interact, hgo, hhum, hhc, hvalid]

/-- Witness for C10: fresh 2×2 board, human to play, mouse over the origin
cell, no click. -/
theorem c10_hover_preview_is_pure_witness :
    (State.mk ⟨2, 1, 1, true⟩ ⟨2, 2, [none, none, none, none]⟩ 0).next_player_is_human = true ∧
      show_board_and_interact
          (App.mk (State.mk ⟨2, 1, 1, true⟩ ⟨2, 2, [none, none, none, none]⟩ 0) [] 0)
          ⟨0, 0, 2⟩ (some (1, 1)) false false none =
        (App.mk (State.mk ⟨2, 1, 1, true⟩ ⟨2, 2, [none, none, none, none]⟩ 0) [] 0,
          { State.mk ⟨2, 1, 1, true⟩ ⟨2, 2, [none, none, none, none]⟩ 0 with
              board := (State.mk ⟨2, 1, 1, true⟩
                  ⟨2, 2, [none, none, none, none]⟩ 0).board.set ⟨0, 0⟩
                (some (State.mk ⟨2, 1, 1, true⟩
                  ⟨2, 2, [none, none, none, none]⟩ 0).next_player) }) :=
  ⟨by decide,
    c10_hover_preview_is_pure
      (App.mk (State.mk ⟨2, 1, 1, true⟩ ⟨2, 2, [none, none, none, none]⟩ 0) [] 0)
      ⟨0, 0, 2⟩ 1 1 false none ⟨0, 0⟩ (by decide) hovered_coord_origin_eval (by decide)⟩

end Hobogo
